import Mathlib

/-!
Verification of the DiffusionCurriculum training core against its
natural-language specification.

This file shallowly embeds the parts of the repository that the claims
refer to:

* `src/train/trainer/d3po.py`  — pairwise-preference trainer (Rule B):
  the domination comparison `Trainer._compare`, the paired sampling in
  `Trainer._sample`, and the D3PO loss in `Trainer.step`;
* `src/train/trainer/ddpo.py`  — single-trajectory PPO trainer (Rule A):
  the PPO-clip loss and diagnostics in `Trainer.step`, the
  reshuffle-and-rebatch transform in `Trainer.epoch_loop`, and the
  curriculum observation built in `Trainer._sample`;
* `src/train/trainer/dpok.py`  — KL-regularized PPO trainer (Rule C):
  the loss in `Trainer.step` with its categorical-KL term;
* `src/train/ordered_dataloader.py` — `CurriculumPromptLoader`.

Tensors of floats are embedded as `List ℝ` (or `List (List ℝ)` for a
2-dimensional tensor); the order-only domination comparison is embedded
generically over a linear order so that concrete examples can be settled
by `decide` on `ℚ`.  Fallible Python operations (dict lookup, list
indexing, attribute access on the wrong dynamic type, lookup of an
undefined name) are embedded in `Except String`.
-/

namespace DiffusionCurriculum

/-- Arithmetic mean of a list, `torch.mean` / `np.mean` on a 1-d tensor
(0 for the empty list, matching the convention `0 / 0 = 0` of `ℝ` division
in Lean; every use in the claims is on nonempty batches). -/
noncomputable def listMean (l : List ℝ) : ℝ := l.sum / l.length

/-- Embedding of `torch.clamp(x, lo, hi)`: `min (max x lo) hi`. -/
noncomputable def clip (x lo hi : ℝ) : ℝ := min (max x lo) hi

/-! ### Domination comparison — `Trainer._compare`, d3po.py lines 410-429

The comparison receives two reward tensors of equal shape.  A 1-dimensional
input (scalar reward per batch element) is unsqueezed to shape `(B, 1)`.
Per batch row, `a_dominates = all(a <= b, dim=1) and any(a < b, dim=1)`
(lower-is-better) and symmetrically `b_dominates`; the output row is
`(-1, 1)` when `a` dominates, `(1, -1)` when `b` dominates and `(0, 0)`
otherwise.  The two in-place mask assignments write `a_dominates` first and
`b_dominates` second, so the row-level embedding tests `b_dominates` first
(later write wins); the two masks are in fact disjoint, which theorem
`C1_compare_domination` proves.  The float values written are exactly
representable, so the result rows are embedded as pairs of rationals. -/
def dominatesB {α : Type} [LinearOrder α] (a b : List α) : Bool :=
  ((a.zip b).all fun p => p.1 ≤ p.2) && ((a.zip b).any fun p => p.1 < p.2)

/-- Row-level result of `Trainer._compare` (d3po.py lines 421-427). -/
def comparePair {α : Type} [LinearOrder α] (a b : List α) : ℚ × ℚ :=
  if dominatesB b a then (1, -1)
  else if dominatesB a b then (-1, 1)
  else (0, 0)

/-- Embedding of `Trainer._compare` on two batches of reward vectors of
equal shape (d3po.py lines 410-429). -/
def compareRewards {α : Type} [LinearOrder α] (a b : List (List α)) :
    List (ℚ × ℚ) :=
  (a.zip b).map fun p => comparePair p.1 p.2

/-- Embedding of `Trainer._compare` on 1-dimensional (scalar-per-element)
reward tensors: the code unsqueezes both to shape `(B, 1)`
(d3po.py lines 417-419). -/
def compareScalars {α : Type} [LinearOrder α] (a b : List α) : List (ℚ × ℚ) :=
  compareRewards (a.map fun x => [x]) (b.map fun x => [x])

/-- Specification-side Pareto domination of reward vectors, lower-is-better:
`x` dominates `y` iff `x ≤ y` elementwise and `x < y` in at least one
dimension. -/
def ParetoDom {α : Type} [LinearOrder α] (x y : List α) : Prop :=
  (∀ p ∈ x.zip y, p.1 ≤ p.2) ∧ (∃ p ∈ x.zip y, p.1 < p.2)

lemma dominatesB_iff {α : Type} [LinearOrder α] (x y : List α) :
    dominatesB x y = true ↔ ParetoDom x y := by
  simp [dominatesB, ParetoDom, List.all_eq_true, List.any_eq_true]

lemma paretoDom_asymm {α : Type} [LinearOrder α] {x y : List α}
    (h : ParetoDom x y) : ¬ ParetoDom y x := by
  rintro ⟨hle, -⟩
  obtain ⟨hle1, p, hp, hlt⟩ := h
  have hmem : (p.2, p.1) ∈ y.zip x := by
    rw [← List.zip_swap x y]
    exact List.mem_map.mpr ⟨p, hp, rfl⟩
  exact absurd (hle (p.2, p.1) hmem) (by simpa using hlt)

/-- Specification-side domination stated dimensionwise, exactly as the spec
words it: `a ≤ b` elementwise and `a < b` in at least one dimension. -/
def ElemDomination {α : Type} [LinearOrder α] (x y : List α) : Prop :=
  (∀ (j : ℕ) (hx : j < x.length) (hy : j < y.length), x.get ⟨j, hx⟩ ≤ y.get ⟨j, hy⟩) ∧
  (∃ (j : ℕ) (hx : j < x.length) (hy : j < y.length), x.get ⟨j, hx⟩ < y.get ⟨j, hy⟩)

lemma elemDomination_iff_paretoDom {α : Type} [LinearOrder α] {x y : List α}
    (hlen : x.length = y.length) : ElemDomination x y ↔ ParetoDom x y := by
  have hzlen : (x.zip y).length = x.length := by
    simp [List.length_zip, hlen]
  constructor
  · rintro ⟨hle, j, hx, hy, hlt⟩
    refine ⟨?_, ?_⟩
    · intro p hp
      obtain ⟨i, hi⟩ := List.get_of_mem hp
      have := @List.getElem_zip _ _ x y i.1 i.2
      rw [← List.get_eq_getElem] at this
      rw [this] at hi
      cases hi
      exact hle _ _ _
    · refine ⟨(x.get ⟨j, hx⟩, y.get ⟨j, hy⟩), ?_, hlt⟩
      have hj : j < (x.zip y).length := by omega
      have := @List.getElem_zip _ _ x y j hj
      exact this ▸ List.getElem_mem hj
  · rintro ⟨hle, p, hp, hlt⟩
    obtain ⟨i, hi⟩ := List.get_of_mem hp
    have hix : (i : ℕ) < x.length := by omega
    have hiy : (i : ℕ) < y.length := by omega
    refine ⟨?_, (i : ℕ), hix, hiy, ?_⟩
    · intro j hx hy
      have hj : j < (x.zip y).length := by omega
      have hmem : (x.get ⟨j, hx⟩, y.get ⟨j, hy⟩) ∈ x.zip y := by
        have := @List.getElem_zip _ _ x y j hj
        exact this ▸ List.getElem_mem hj
      exact hle _ hmem
    · have := @List.getElem_zip _ _ x y (i : ℕ) i.2
      rw [← List.get_eq_getElem] at this
      rw [this] at hi
      cases hi
      exact hlt

/-- C1 (counterexample): the claim asserts that the reward pair
`a = (30, 10)`, `b = (20, 8)` yields preference `(0, 0)`; on the code,
`b ≤ a` elementwise with `b < a` in both dimensions, so `b` dominates `a`
(lower-is-better) and `Trainer._compare` returns `(+1, -1)`. -/
theorem C1_compare_domination_counterexample :
    compareRewards [[(30 : ℚ), 10]] [[20, 8]] = [(1, -1)] ∧
    compareRewards [[(30 : ℚ), 10]] [[20, 8]] ≠ [(0, 0)] := by
  decide

/-- C1 (amended): for every pair of reward tensors of equal shape,
`Trainer._compare` returns per batch element `(-1, 1)` when `a` dominates
`b` (lower-is-better: `a ≤ b` elementwise, `a < b` somewhere), `(1, -1)`
when `b` dominates `a`, and `(0, 0)` otherwise, including when the rows
are equal in every dimension; in particular `a=(30,10), b=(20,8)` gives
`(+1,-1)` (`b` dominates `a`), `a=(10,10), b=(20,20)` gives `(-1,+1)` and
`a=(10,10), b=(10,10)` gives `(0,0)`. -/
theorem C1_compare_domination :
    (∀ (a b : List (List ℚ)) (i : ℕ) (ra rb : List ℚ),
      a.length = b.length → ra.length = rb.length →
      a.get? i = some ra → b.get? i = some rb →
      ((ElemDomination ra rb → (compareRewards a b).get? i = some (-1, 1)) ∧
       (ElemDomination rb ra → (compareRewards a b).get? i = some (1, -1)) ∧
       (¬ ElemDomination ra rb → ¬ ElemDomination rb ra →
         (compareRewards a b).get? i = some (0, 0)))) ∧
    compareRewards [[30, 10]] [[20, 8]] = [(1, -1)] ∧
    compareRewards [[10, 10]] [[20, 20]] = [(-1, 1)] ∧
    compareRewards [[10, 10]] [[10, 10]] = [(0, 0)] := by
  refine ⟨?_, by decide, by decide, by decide⟩
  intro a b i ra rb _hab hrow ha hb
  have hzip : (a.zip b).get? i = some (ra, rb) :=
    (List.get?_zip_eq_some a b (ra, rb) i).mpr ⟨ha, hb⟩
  have hget : (compareRewards a b).get? i = some (comparePair ra rb) := by
    rw [compareRewards, List.get?_map, hzip]; rfl
  refine ⟨?_, ?_, ?_⟩
  · intro hdom
    have hpar : ParetoDom ra rb := (elemDomination_iff_paretoDom hrow).mp hdom
    have hnot : ¬ ParetoDom rb ra := paretoDom_asymm hpar
    rw [hget, comparePair, if_neg (by simpa [dominatesB_iff] using hnot),
      if_pos (by simpa [dominatesB_iff] using hpar)]
  · intro hdom
    have hpar : ParetoDom rb ra := (elemDomination_iff_paretoDom hrow.symm).mp hdom
    rw [hget, comparePair, if_pos (by simpa [dominatesB_iff] using hpar)]
  · intro h1 h2
    have hn1 : ¬ ParetoDom ra rb := fun h =>
      h1 ((elemDomination_iff_paretoDom hrow).mpr h)
    have hn2 : ¬ ParetoDom rb ra := fun h =>
      h2 ((elemDomination_iff_paretoDom hrow.symm).mpr h)
    rw [hget, comparePair, if_neg (by simpa [dominatesB_iff] using hn2),
      if_neg (by simpa [dominatesB_iff] using hn1)]

/-- Witness for `C1_compare_domination` at concrete inputs: the batch
`a = [[10, 10]]`, `b = [[20, 20]]` with row index 0. -/
theorem C1_compare_domination_witness :
    (ElemDomination [(10 : ℚ), 10] [20, 20] →
      (compareRewards [[(10 : ℚ), 10]] [[20, 20]]).get? 0 = some (-1, 1)) ∧
    (ElemDomination [(20 : ℚ), 20] [10, 10] →
      (compareRewards [[(10 : ℚ), 10]] [[20, 20]]).get? 0 = some (1, -1)) ∧
    (¬ ElemDomination [(10 : ℚ), 10] [20, 20] →
      ¬ ElemDomination [(20 : ℚ), 20] [10, 10] →
      (compareRewards [[(10 : ℚ), 10]] [[20, 20]]).get? 0 = some (0, 0)) :=
  (C1_compare_domination.1 [[10, 10]] [[20, 20]] 0 [10, 10] [20, 20]
    rfl rfl rfl rfl)

/-! ### Single-trajectory PPO-clip — `Trainer.step`, ddpo.py lines 598-618

Per minibatch and per training timestep `j` the code computes
`advantages = clamp(batch.advantages, -train_adv_clip_max, train_adv_clip_max)`,
`ratio = exp(log_prob - batch.log_probs[:, j])`,
`unclipped_loss = -advantages * ratio`,
`clipped_loss = -advantages * clamp(ratio, 1 - clip_range, 1 + clip_range)`,
`loss = mean(maximum(unclipped_loss, clipped_loss))`, and the diagnostic
`clipfrac = mean((abs(ratio - 1) > clip_range).float())`.  The per-batch
vectors are embedded as lists: `advantages` is the stored advantage column,
`logp_old` is `batch.log_probs[:, j]` and `logp_new` is the recomputed
`log_prob`. -/
structure PPOConfig where
  train_adv_clip_max : ℝ
  train_clip_range : ℝ

/-- Advantage clamp from ddpo.py lines 599-601 (identically dpok.py
lines 607-609). -/
noncomputable def clampedAdv (m : ℝ) (advantages : List ℝ) : List ℝ :=
  advantages.map fun a => clip a (-m) m

/-- Importance ratios `exp(log_prob - batch.log_probs[:, j])`
(ddpo.py line 605, dpok.py line 610). -/
noncomputable def ppoRatios (logp_new logp_old : List ℝ) : List ℝ :=
  List.zipWith (fun n o => Real.exp (n - o)) logp_new logp_old

/-- PPO-clip loss of `Trainer.step` in ddpo.py (lines 598-610). -/
noncomputable def ddpoStepLoss (cfg : PPOConfig)
    (advantages logp_old logp_new : List ℝ) : ℝ :=
  listMean (List.zipWith max
    (List.zipWith (fun a r => -a * r)
      (clampedAdv cfg.train_adv_clip_max advantages) (ppoRatios logp_new logp_old))
    (List.zipWith
      (fun a r => -a * clip r (1 - cfg.train_clip_range) (1 + cfg.train_clip_range))
      (clampedAdv cfg.train_adv_clip_max advantages) (ppoRatios logp_new logp_old)))

/-- Clip-fraction diagnostic of `Trainer.step` in ddpo.py (line 618). -/
noncomputable def ddpoClipFrac (cfg : PPOConfig) (logp_old logp_new : List ℝ) : ℝ :=
  listMean ((ppoRatios logp_new logp_old).map
    fun r => if |r - 1| > cfg.train_clip_range then 1 else 0)

/-! ### KL-regularized PPO — `Trainer.step`, dpok.py lines 606-620

The code computes the same clipped surrogate as ddpo.py and then adds
`kl_ratio * kl_divergence.mean()` where `kl_divergence` is
`kl.kl_divergence(Categorical(logits=log_prob), Categorical(logits=sample.log_probs[:, j]))`.
Both logits vectors are 1-dimensional (one entry per minibatch element), so
the KL is a single scalar and its `.mean()` is the identity. -/
structure DPOKConfig where
  train_adv_clip_max : ℝ
  train_clip_range : ℝ
  kl_ratio : ℝ

/-- Embedding of `torch.logsumexp`, the normalizer of a categorical
distribution given by logits. -/
noncomputable def logsumexp (l : List ℝ) : ℝ := Real.log (l.map Real.exp).sum

/-- Embedding of `torch.distributions.kl.kl_divergence` on two `Categorical`
distributions given by logits `a` and `b`:
`Σ_i softmax(a)_i * (logsoftmax(a)_i - logsoftmax(b)_i)` with
`logsoftmax(a)_i = a_i - logsumexp(a)`. -/
noncomputable def klCategorical (a b : List ℝ) : ℝ :=
  ((a.zip b).map fun p =>
    Real.exp (p.1 - logsumexp a) * ((p.1 - logsumexp a) - (p.2 - logsumexp b))).sum

/-- Loss of `Trainer.step` in dpok.py (lines 606-620): clipped surrogate
plus `kl_ratio * kl_divergence.mean()` (the `.mean()` of the 0-dimensional
KL tensor is the identity). -/
noncomputable def dpokStepLoss (cfg : DPOKConfig)
    (advantages logp_old logp_new : List ℝ) : ℝ :=
  listMean (List.zipWith max
    (List.zipWith (fun a r => -a * r)
      (clampedAdv cfg.train_adv_clip_max advantages) (ppoRatios logp_new logp_old))
    (List.zipWith
      (fun a r => -a * clip r (1 - cfg.train_clip_range) (1 + cfg.train_clip_range))
      (clampedAdv cfg.train_adv_clip_max advantages) (ppoRatios logp_new logp_old)))
  + cfg.kl_ratio * klCategorical logp_new logp_old

/-- Clip-fraction diagnostic of `Trainer.step` in dpok.py (line 626). -/
noncomputable def dpokClipFrac (cfg : DPOKConfig) (logp_old logp_new : List ℝ) : ℝ :=
  listMean ((ppoRatios logp_new logp_old).map
    fun r => if |r - 1| > cfg.train_clip_range then 1 else 0)

lemma zipWith_map_ones {α β γ : Type} (F : α → ℝ → γ) (g : β → ℝ)
    (as : List α) (bs : List β) (h : as.length = bs.length)
    (hg : ∀ b, g b = 1) :
    List.zipWith F as (bs.map g) = as.map fun a => F a 1 := by
  induction as generalizing bs with
  | nil => simp
  | cons a as ih =>
    cases bs with
    | nil => simp at h
    | cons b bs =>
      simp only [List.length_cons, Nat.add_right_cancel_iff] at h
      simp only [List.map_cons, List.zipWith_cons_cons, hg b, List.cons.injEq,
        true_and]
      exact ih bs h

lemma ppoRatios_self (l : List ℝ) : ppoRatios l l = l.map fun _ => 1 := by
  rw [ppoRatios, List.zipWith_same]
  exact List.map_congr_left fun x _ => by simp

lemma klCategorical_self (l : List ℝ) : klCategorical l l = 0 := by
  rw [klCategorical]
  refine List.sum_eq_zero ?_
  intro x hx
  obtain ⟨p, hp, hpe⟩ := List.mem_map.mp hx
  obtain ⟨i, hi⟩ := List.get_of_mem hp
  have hpp : p.1 = p.2 := by
    have h1 := (List.get?_zip_eq_some l l p i).mp
      (by rw [List.get?_eq_get i.2]; exact congrArg some hi)
    exact Option.some_injective _ (h1.1.symm.trans h1.2)
  rw [← hpe, hpp]
  ring

lemma clip_one_of_nonneg {eps : ℝ} (heps : 0 ≤ eps) :
    clip 1 (1 - eps) (1 + eps) = 1 := by
  rw [clip, max_eq_left (by linarith), min_eq_left (by linarith)]

/-- C2 (counterexample): with `train_adv_clip_max = 5`,
`train_clip_range = 1/10`, a minibatch with stored advantage `10` and
`logp_new = logp_old = 0`, the loss is `-5` (the clamped advantage negated)
and not `mean(-advantage) = -10` as the claim states. -/
theorem C2_ppo_clip_idempotence_counterexample :
    ddpoStepLoss ⟨5, 1 / 10⟩ [10] [0] [0] = -5 ∧
    listMean ([(10 : ℝ)].map fun a => -a) = -10 ∧
    ddpoStepLoss ⟨5, 1 / 10⟩ [10] [0] [0] ≠
      listMean ([(10 : ℝ)].map fun a => -a) := by
  have hc : clip (10 : ℝ) (-5) 5 = 5 := by
    rw [clip, max_eq_left (by norm_num), min_eq_right (by norm_num)]
  have hr : clip (1 : ℝ) (1 - 1 / 10) (1 + 1 / 10) = 1 :=
    clip_one_of_nonneg (by norm_num)
  have hA : ddpoStepLoss ⟨5, 1 / 10⟩ [10] [0] [0] = -5 := by
    simp only [ddpoStepLoss, clampedAdv, ppoRatios, List.map_cons,
      List.map_nil, List.zipWith_cons_cons, List.zipWith_nil_right,
      sub_zero, Real.exp_zero, hc, hr, mul_one, max_self, listMean]
    norm_num
  have hB : listMean ([(10 : ℝ)].map fun a => -a) = -10 := by
    simp [listMean]
  exact ⟨hA, hB, by rw [hA, hB]; norm_num⟩

/-- C2 (amended): when the recomputed log-probabilities equal the stored
sampling-time log-probabilities at every step, every ratio is 1, the clip
fraction is 0 and the loss reduces to the mean of the negated **clamped**
advantages `mean(-clamp(advantage, ±train_adv_clip_max))` — in dpok the
added KL term vanishes as well, so the same reduction holds there. -/
theorem C2_ppo_clip_idempotence (cfg : PPOConfig) (cfgd : DPOKConfig)
    (advantages logp_old logp_new : List ℝ)
    (heq : logp_new = logp_old)
    (hlen : advantages.length = logp_old.length)
    (heps : 0 ≤ cfg.train_clip_range) (hepsd : 0 ≤ cfgd.train_clip_range)
    (hmax : cfgd.train_adv_clip_max = cfg.train_adv_clip_max) :
    (∀ r ∈ ppoRatios logp_new logp_old, r = 1) ∧
    ddpoClipFrac cfg logp_old logp_new = 0 ∧
    dpokClipFrac cfgd logp_old logp_new = 0 ∧
    ddpoStepLoss cfg advantages logp_old logp_new =
      listMean ((clampedAdv cfg.train_adv_clip_max advantages).map fun a => -a) ∧
    dpokStepLoss cfgd advantages logp_old logp_new =
      listMean ((clampedAdv cfg.train_adv_clip_max advantages).map fun a => -a) := by
  subst heq
  have hrat := ppoRatios_self logp_new
  have hlenc : (clampedAdv cfg.train_adv_clip_max advantages).length =
      logp_new.length := by
    simp [clampedAdv, hlen]
  have hsur : ∀ (e : ℝ), 0 ≤ e →
      List.zipWith max
        (List.zipWith (fun a r => -a * r)
          (clampedAdv cfg.train_adv_clip_max advantages) (ppoRatios logp_new logp_new))
        (List.zipWith (fun a r => -a * clip r (1 - e) (1 + e))
          (clampedAdv cfg.train_adv_clip_max advantages) (ppoRatios logp_new logp_new)) =
      (clampedAdv cfg.train_adv_clip_max advantages).map fun a => -a := by
    intro e he
    rw [hrat, zipWith_map_ones _ _ _ _ hlenc (fun _ => rfl),
      zipWith_map_ones _ _ _ _ hlenc (fun _ => rfl)]
    simp only [mul_one, clip_one_of_nonneg he]
    rw [List.zipWith_map_left, List.zipWith_map_right, List.zipWith_same]
    exact List.map_congr_left fun a _ => by simp
  have hfrac : ∀ (e : ℝ), 0 ≤ e →
      listMean ((ppoRatios logp_new logp_new).map
        fun r => if |r - 1| > e then 1 else 0) = 0 := by
    intro e he
    rw [hrat, List.map_map]
    have : ((fun r => if |r - 1| > e then (1 : ℝ) else 0) ∘ fun _ => (1 : ℝ)) =
        fun (_ : ℝ) => (0 : ℝ) := by
      funext x
      simp only [Function.comp]
      rw [if_neg (by simp only [sub_self, abs_zero, gt_iff_lt]; exact not_lt.mpr he)]
    rw [this, listMean, List.sum_eq_zero (by simp)]
    simp
  refine ⟨?_, hfrac _ heps, hfrac _ hepsd, ?_, ?_⟩
  · intro r hr
    rw [hrat] at hr
    obtain ⟨x, -, hxe⟩ := List.mem_map.mp hr
    exact hxe.symm
  · rw [ddpoStepLoss, hsur _ heps]
  · rw [dpokStepLoss, hmax, hsur _ hepsd, klCategorical_self, mul_zero, add_zero]

/-- Witness for `C2_ppo_clip_idempotence`: configs with clip max 5 and
clip range 1/10 (kl ratio 1/100), advantages `[3]`,
`logp_new = logp_old = [2]`. -/
theorem C2_ppo_clip_idempotence_witness :
    (∀ r ∈ ppoRatios [(2 : ℝ)] [2], r = 1) ∧
    ddpoClipFrac ⟨5, 1 / 10⟩ [2] [2] = 0 ∧
    dpokClipFrac ⟨5, 1 / 10, 1 / 100⟩ [2] [2] = 0 ∧
    ddpoStepLoss ⟨5, 1 / 10⟩ [3] [2] [2] =
      listMean ((clampedAdv (5 : ℝ) [3]).map fun a => -a) ∧
    dpokStepLoss ⟨5, 1 / 10, 1 / 100⟩ [3] [2] [2] =
      listMean ((clampedAdv (5 : ℝ) [3]).map fun a => -a) :=
  C2_ppo_clip_idempotence ⟨5, 1 / 10⟩ ⟨5, 1 / 10, 1 / 100⟩ [3] [2] [2]
    rfl rfl (by norm_num) (by norm_num) rfl

lemma clip_of_mem {x lo hi : ℝ} (h1 : lo ≤ x) (h2 : x ≤ hi) :
    clip x lo hi = x := by
  rw [clip, max_eq_left h1, min_eq_left h2]

lemma clip_mem {a m : ℝ} (hm : 0 ≤ m) :
    -m ≤ clip a (-m) m ∧ clip a (-m) m ≤ m := by
  constructor
  · exact le_min (le_max_right a (-m)) (by linarith)
  · exact min_le_right _ _

lemma clampedAdv_idem {m : ℝ} (hm : 0 ≤ m) (adv : List ℝ) :
    clampedAdv m (clampedAdv m adv) = clampedAdv m adv := by
  rw [clampedAdv, clampedAdv, List.map_map]
  exact List.map_congr_left fun a _ => by
    simp only [Function.comp]
    exact clip_of_mem (clip_mem hm).1 (clip_mem hm).2

/-- C10: the advantage entering the clipped surrogate is
`clamp(advantage, ±train_adv_clip_max)`, not the raw stored advantage:
recomputing the loss from the already-clamped advantages changes
nothing, and any change to an advantage that stays outside the clamp
interval on the same side leaves both trainers' losses unchanged. -/
theorem C10_advantage_clamp_invariance (cfg : PPOConfig) (cfgd : DPOKConfig)
    (adv adv2 logp_old logp_new : List ℝ)
    (hm : 0 ≤ cfg.train_adv_clip_max)
    (hmd : cfgd.train_adv_clip_max = cfg.train_adv_clip_max)
    (hsame : List.Forall₂ (fun a a2 => a = a2 ∨
        (cfg.train_adv_clip_max ≤ a ∧ cfg.train_adv_clip_max ≤ a2) ∨
        (a ≤ -cfg.train_adv_clip_max ∧ a2 ≤ -cfg.train_adv_clip_max)) adv adv2) :
    ddpoStepLoss cfg adv logp_old logp_new =
      ddpoStepLoss cfg (clampedAdv cfg.train_adv_clip_max adv) logp_old logp_new ∧
    ddpoStepLoss cfg adv logp_old logp_new =
      ddpoStepLoss cfg adv2 logp_old logp_new ∧
    dpokStepLoss cfgd adv logp_old logp_new =
      dpokStepLoss cfgd adv2 logp_old logp_new := by
  have heq : clampedAdv cfg.train_adv_clip_max adv =
      clampedAdv cfg.train_adv_clip_max adv2 := by
    rw [clampedAdv, clampedAdv]
    induction hsame with
    | nil => rfl
    | cons hab _ ih =>
      rw [List.map_cons, List.map_cons, ih]
      rcases hab with rfl | ⟨h1, h2⟩ | ⟨h1, h2⟩
      · rfl
      · rw [clip, clip, max_eq_left (by linarith), max_eq_left (by linarith),
          min_eq_right h1, min_eq_right h2]
      · rw [clip, clip, max_eq_right (by linarith), max_eq_right (by linarith)]
  refine ⟨?_, ?_, ?_⟩
  · simp only [ddpoStepLoss, clampedAdv_idem hm]
  · simp only [ddpoStepLoss, heq]
  · simp only [dpokStepLoss, hmd, heq]

/-- Witness for `C10_advantage_clamp_invariance`: clip max 5, stored
advantages `[7]` against `[9]` (both above the clamp), identical
log-probabilities `[0]`. -/
theorem C10_advantage_clamp_invariance_witness :
    ddpoStepLoss ⟨5, 1 / 10⟩ [7] [0] [0] =
      ddpoStepLoss ⟨5, 1 / 10⟩ (clampedAdv (5 : ℝ) [7]) [0] [0] ∧
    ddpoStepLoss ⟨5, 1 / 10⟩ [7] [0] [0] = ddpoStepLoss ⟨5, 1 / 10⟩ [9] [0] [0] ∧
    dpokStepLoss ⟨5, 1 / 10, 1 / 100⟩ [7] [0] [0] =
      dpokStepLoss ⟨5, 1 / 10, 1 / 100⟩ [9] [0] [0] :=
  C10_advantage_clamp_invariance ⟨5, 1 / 10⟩ ⟨5, 1 / 10, 1 / 100⟩ [7] [9] [0] [0]
    (by norm_num) rfl
    (List.Forall₂.cons (Or.inr (Or.inl ⟨by norm_num, by norm_num⟩))
      List.Forall₂.nil)

/-- Softmax probabilities of a categorical distribution given by logits. -/
noncomputable def softmax (l : List ℝ) : List ℝ :=
  l.map fun x => Real.exp x / (l.map Real.exp).sum

/-- Modelled from the spec words for Rule C: the Kullback-Leibler
divergence `KL(p ‖ q) = Σ_i p_i * log (p_i / q_i)` between two discrete
probability vectors. -/
noncomputable def klDivDiscrete (p q : List ℝ) : ℝ :=
  ((p.zip q).map fun x => x.1 * Real.log (x.1 / x.2)).sum

lemma sum_exp_pos {l : List ℝ} (h : l ≠ []) : 0 < (l.map Real.exp).sum := by
  refine List.sum_pos _ ?_ (by simpa using h)
  intro x hx
  obtain ⟨y, -, hye⟩ := List.mem_map.mp hx
  exact hye ▸ Real.exp_pos y

lemma klCategorical_eq_klDivDiscrete (a b : List ℝ) :
    klCategorical a b = klDivDiscrete (softmax a) (softmax b) := by
  rcases ha : a with _ | ⟨a0, as⟩
  · simp [klCategorical, klDivDiscrete, softmax]
  rcases hb : b with _ | ⟨b0, bs⟩
  · simp [klCategorical, klDivDiscrete, softmax]
  rw [← ha, ← hb]
  have hane : a ≠ [] := by rw [ha]; exact List.cons_ne_nil _ _
  have hbne : b ≠ [] := by rw [hb]; exact List.cons_ne_nil _ _
  have hSa : 0 < (a.map Real.exp).sum := sum_exp_pos hane
  have hSb : 0 < (b.map Real.exp).sum := sum_exp_pos hbne
  rw [klDivDiscrete, softmax, softmax, List.zip_map, List.map_map, klCategorical]
  congr 1
  refine List.map_congr_left fun p _ => ?_
  simp only [Function.comp, Prod.map_fst, Prod.map_snd]
  have hfa : Real.exp p.1 / (a.map Real.exp).sum = Real.exp (p.1 - logsumexp a) := by
    rw [Real.exp_sub, logsumexp, Real.exp_log hSa]
  have hlog2 : Real.log (Real.exp p.2 / (b.map Real.exp).sum) = p.2 - logsumexp b := by
    rw [Real.log_div (Real.exp_ne_zero _) (ne_of_gt hSb), Real.log_exp, logsumexp]
  rw [Real.log_div (by positivity) (by positivity), hfa, Real.log_exp, hlog2]

/-- C6: the dpok minibatch loss is the Rule A clipped surrogate (with the
same clip max and clip range) plus the additive term
`kl_ratio * KL(current ‖ old)`, where the KL term is exactly the
Kullback-Leibler divergence between the categorical distribution with the
recomputed per-step log-probabilities as logits and the one with the
sampling-time log-probabilities as logits. -/
theorem C6_dpok_kl_regularized_loss (cfgd : DPOKConfig)
    (advantages logp_old logp_new : List ℝ) :
    dpokStepLoss cfgd advantages logp_old logp_new =
      ddpoStepLoss ⟨cfgd.train_adv_clip_max, cfgd.train_clip_range⟩
        advantages logp_old logp_new
      + cfgd.kl_ratio * klCategorical logp_new logp_old ∧
    klCategorical logp_new logp_old =
      klDivDiscrete (softmax logp_new) (softmax logp_old) :=
  ⟨rfl, klCategorical_eq_klDivDiscrete _ _⟩

/-! ### Pairwise-preference loss — `Trainer.step`, d3po.py lines 772-789

Per training timestep the code computes, over the pair minibatch,
`human_prefer = self._compare(sample_0.rewards, sample_1.rewards)`,
`ratio_i = clamp(exp(total_prob_i - total_ref_prob_i), 1 - train_eps, 1 + train_eps)`
and `loss = -log(sigmoid(train_beta * log(ratio_0) * human_prefer[:, 0]
+ train_beta * log(ratio_1) * human_prefer[:, 1])).mean()` (the leading
minus binds after `.mean()`, i.e. the mean is negated). -/
noncomputable def sigmoid (x : ℝ) : ℝ := 1 / (1 + Real.exp (-x))

/-- Current-vs-reference probability ratios, clipped before their logarithm
is taken (d3po.py lines 776-781). -/
noncomputable def clippedRatio (eps : ℝ) (logp ref : List ℝ) : List ℝ :=
  List.zipWith (fun p r => clip (Real.exp (p - r)) (1 - eps) (1 + eps)) logp ref

/-- Per-trajectory inputs of one d3po training step: rewards of the two
trajectories of each pair and the current-policy and frozen-reference-policy
log-probabilities of each recorded transition. -/
structure D3POStepBatch where
  rewards0 : List ℝ
  rewards1 : List ℝ
  logp0 : List ℝ
  logp1 : List ℝ
  refLogp0 : List ℝ
  refLogp1 : List ℝ

/-- Loss of `Trainer.step` in d3po.py (lines 772-789). -/
noncomputable def d3poStepLoss (beta eps : ℝ) (b : D3POStepBatch) : ℝ :=
  -(listMean ((((clippedRatio eps b.logp0 b.refLogp0).zip
      (clippedRatio eps b.logp1 b.refLogp1)).zip
      (compareScalars b.rewards0 b.rewards1)).map
    fun x => Real.log (sigmoid
      (beta * Real.log x.1.1 * (x.2.1 : ℝ) + beta * Real.log x.1.2 * (x.2.2 : ℝ)))))

/-- Modelled from the spec words for Rule B: per pair the loss is
`-log sigmoid(β · [pref_0 · log ratio_0 + pref_1 · log ratio_1])`, averaged
over the pair batch, with each ratio clipped to `[1-ε, 1+ε]` before its
logarithm and `(pref_0, pref_1)` the domination preference of the two
trajectories' rewards. -/
noncomputable def d3poSpecLoss (beta eps : ℝ) (b : D3POStepBatch) : ℝ :=
  listMean ((((clippedRatio eps b.logp0 b.refLogp0).zip
      (clippedRatio eps b.logp1 b.refLogp1)).zip
      (compareScalars b.rewards0 b.rewards1)).map
    fun x => -(Real.log (sigmoid
      (beta * ((x.2.1 : ℝ) * Real.log x.1.1 + (x.2.2 : ℝ) * Real.log x.1.2)))))

lemma listMean_map_neg {α : Type} (l : List α) (f : α → ℝ) :
    listMean (l.map fun x => -(f x)) = -(listMean (l.map f)) := by
  have h1 : (l.map fun x => -(f x)) = (l.map f).map fun y => -y := by
    rw [List.map_map]; rfl
  rw [listMean, listMean, h1]
  rw [show ((l.map f).map fun y => -y).sum = -((l.map f).sum) by
    induction (l.map f) with
    | nil => simp
    | cons x xs ih => simp [ih]; ring]
  simp [neg_div]

/-- C5: per minibatch pair the d3po loss equals
`-log sigmoid(β · (pref_0 · log ratio_0 + pref_1 · log ratio_1))` averaged
over the pair batch, where each `ratio_i = exp(logp_i - ref_logp_i)` is
clipped to `[1-ε, 1+ε]` before its logarithm and `(pref_0, pref_1)` is the
domination preference `Trainer._compare` assigns to the reward pair. -/
theorem C5_d3po_pair_loss (beta eps : ℝ) (b : D3POStepBatch) :
    d3poStepLoss beta eps b = d3poSpecLoss beta eps b := by
  rw [d3poStepLoss, d3poSpecLoss, listMean_map_neg]
  congr 2
  refine List.map_congr_left fun x _ => ?_
  rw [show beta * ((x.2.1 : ℝ) * Real.log x.1.1 + (x.2.2 : ℝ) * Real.log x.1.2) =
    beta * Real.log x.1.1 * (x.2.1 : ℝ) + beta * Real.log x.1.2 * (x.2.2 : ℝ)
    from by ring]

/-! ### Reshuffle-and-rebatch — `Trainer.epoch_loop`, ddpo.py lines 520-535
(identically dpok.py lines 526-542)

The code draws `perm = randperm(total_batch_size)` and applies
`samples = samples[perm]`, draws an independent `randperm(num_timesteps)`
per trajectory and applies
`samples[key] = samples[key][arange(total_batch_size)[:, None], perms]`,
then rebatches with `reshape(-1, train_batch_size)`.  After both shuffles
the tensor entry at `(b, t)` is the original entry at
`(perm b, perms b t)`; the reshape maps minibatch `m`, row `k` to flat
index `m * train_batch_size + k`.  `torch.randperm` always returns a
permutation, so the two drawn tables are embedded as `Equiv.Perm`. -/
def reshuffle {α : Type} (B T : ℕ) (perm : Equiv.Perm (Fin B))
    (perms : Fin B → Equiv.Perm (Fin T)) (v : Fin B → Fin T → α) :
    Fin B → Fin T → α :=
  fun b t => v (perm b) (perms b t)

/-- Index map of the two shuffles: output position `(b, t)` holds the
original entry at `(perm b, perms b t)`. -/
def reshuffleIndex (B T : ℕ) (perm : Equiv.Perm (Fin B))
    (perms : Fin B → Equiv.Perm (Fin T)) : Fin B × Fin T → Fin B × Fin T :=
  fun p => (perm p.1, perms p.1 p.2)

/-- Flat index served to minibatch `m`, row `k` by `reshape(-1, tbs)`. -/
def rebatchIndex (n tbs B : ℕ) (h : n * tbs = B) : Fin n × Fin tbs → Fin B :=
  fun p => ⟨(p.1 : ℕ) * tbs + (p.2 : ℕ), by
    have h1 : (p.1 : ℕ) + 1 ≤ n := p.1.2
    have h2 : (p.2 : ℕ) < tbs := p.2.2
    calc (p.1 : ℕ) * tbs + (p.2 : ℕ) < ((p.1 : ℕ) + 1) * tbs := by
          rw [Nat.add_mul, one_mul]; omega
      _ ≤ n * tbs := Nat.mul_le_mul_right _ h1
      _ = B := h⟩

/-- Minibatch view of a reshuffled tensor (`reshape(-1, train_batch_size)`,
ddpo.py line 532). -/
def rebatchData {α : Type} (n tbs B T : ℕ) (h : n * tbs = B)
    (v : Fin B → Fin T → α) : Fin n → Fin tbs → Fin T → α :=
  fun m k t => v (rebatchIndex n tbs B h (m, k)) t

/-- Helper equivalence showing the two shuffles permute the index set. -/
def reshuffleEquivAux (B T : ℕ) (perm : Equiv.Perm (Fin B))
    (perms : Fin B → Equiv.Perm (Fin T)) : (Fin B × Fin T) ≃ (Fin B × Fin T) where
  toFun := reshuffleIndex B T perm perms
  invFun := fun q => (perm.symm q.1, (perms (perm.symm q.1)).symm q.2)
  left_inv := by
    intro p
    simp [reshuffleIndex]
  right_inv := by
    intro q
    simp [reshuffleIndex]

lemma rebatchIndex_eq_equiv (n tbs B : ℕ) (h : n * tbs = B) :
    rebatchIndex n tbs B h = fun p => finCongr h (finProdFinEquiv p) := by
  funext p
  apply Fin.ext
  simp only [rebatchIndex, finCongr_apply, finProdFinEquiv, Equiv.coe_fn_mk,
    Fin.coe_cast]
  ring

lemma rebatchIndex_bijective (n tbs B : ℕ) (h : n * tbs = B) :
    Function.Bijective (rebatchIndex n tbs B h) := by
  rw [rebatchIndex_eq_equiv]
  exact (finProdFinEquiv.trans (finCongr h)).bijective

/-- C3 (theorem): the reshuffle-and-rebatch transform is a bijection on the
`B×T` index set for every pair of drawn permutations — the map sending the
position `((m, k), t)` served during training to the original
`(trajectory, timestep)` pair it reads is bijective, every original pair is
read by exactly one served position, and the rebatched data agrees with the
original tensor along that index map (no sample dropped or duplicated). -/
theorem C3_reshuffle_rebatch_bijection {α : Type} (B T n tbs : ℕ)
    (h : n * tbs = B) (perm : Equiv.Perm (Fin B))
    (perms : Fin B → Equiv.Perm (Fin T)) (v : Fin B → Fin T → α) :
    Function.Bijective (fun p : (Fin n × Fin tbs) × Fin T =>
      reshuffleIndex B T perm perms (rebatchIndex n tbs B h p.1, p.2)) ∧
    (∀ q : Fin B × Fin T, ∃! p : (Fin n × Fin tbs) × Fin T,
      reshuffleIndex B T perm perms (rebatchIndex n tbs B h p.1, p.2) = q) ∧
    (∀ (m : Fin n) (k : Fin tbs) (t : Fin T),
      rebatchData n tbs B T h (reshuffle B T perm perms v) m k t =
        v (reshuffleIndex B T perm perms (rebatchIndex n tbs B h (m, k), t)).1
          (reshuffleIndex B T perm perms (rebatchIndex n tbs B h (m, k), t)).2) := by
  have hre : Function.Bijective (reshuffleIndex B T perm perms) :=
    (reshuffleEquivAux B T perm perms).bijective
  have hco : Function.Bijective (fun p : (Fin n × Fin tbs) × Fin T =>
      reshuffleIndex B T perm perms (rebatchIndex n tbs B h p.1, p.2)) := by
    have hpm : Function.Bijective
        (fun p : (Fin n × Fin tbs) × Fin T => (rebatchIndex n tbs B h p.1, p.2)) :=
      Function.Bijective.prodMap (rebatchIndex_bijective n tbs B h)
        Function.bijective_id
    exact hre.comp hpm
  exact ⟨hco, fun q => hco.existsUnique q, fun m k t => rfl⟩

/-- Witness for `C3_reshuffle_rebatch_bijection`: `B = 4`, `T = 2`, two
minibatches of size 2, identity permutations, constant data. -/
theorem C3_reshuffle_rebatch_bijection_witness :
    Function.Bijective (fun p : (Fin 2 × Fin 2) × Fin 2 =>
      reshuffleIndex 4 2 (Equiv.refl (Fin 4)) (fun _ => Equiv.refl (Fin 2))
        (rebatchIndex 2 2 4 rfl p.1, p.2)) ∧
    (∀ q : Fin 4 × Fin 2, ∃! p : (Fin 2 × Fin 2) × Fin 2,
      reshuffleIndex 4 2 (Equiv.refl (Fin 4)) (fun _ => Equiv.refl (Fin 2))
        (rebatchIndex 2 2 4 rfl p.1, p.2) = q) ∧
    (∀ (m : Fin 2) (k : Fin 2) (t : Fin 2),
      rebatchData 2 2 4 2 rfl
        (reshuffle 4 2 (Equiv.refl (Fin 4)) (fun _ => Equiv.refl (Fin 2))
          (fun b t => ((b : ℕ), (t : ℕ)))) m k t =
        (fun b t => ((b : ℕ), (t : ℕ)))
          (reshuffleIndex 4 2 (Equiv.refl (Fin 4)) (fun _ => Equiv.refl (Fin 2))
            (rebatchIndex 2 2 4 rfl (m, k), t)).1
          (reshuffleIndex 4 2 (Equiv.refl (Fin 4)) (fun _ => Equiv.refl (Fin 2))
            (rebatchIndex 2 2 4 rfl (m, k), t)).2) :=
  C3_reshuffle_rebatch_bijection 4 2 2 2 rfl
    (Equiv.refl (Fin 4)) (fun _ => Equiv.refl (Fin 2)) (fun b t => ((b : ℕ), (t : ℕ)))

/-! ### CurriculumPromptLoader — `src/train/ordered_dataloader.py`

State after `init`: `difficulty_to_prompts` maps each difficulty tier to
its prompt list, `difficulty_to_prompts_idx` holds the per-tier read
cursor (initialized to the worker's `process_index`),
`current_difficulty` is the active tier, and the accelerator supplies
`process_index` and `num_processes`.  Python dictionaries keyed by `int`
are embedded as association lists with `KeyError` on a missing key;
Python list subscription is embedded with its negative-index semantics
and `IndexError` out of range.  The prompt entries (dicts with a
`prompt` field and metadata) are embedded as an abstract type `α`. -/
structure CurriculumPromptLoader (α : Type) where
  difficulty_to_prompts : List (Int × List α)
  difficulty_to_prompts_idx : List (Int × Int)
  current_difficulty : Int
  process_index : Int
  num_processes : Int
deriving DecidableEq

/-- State update writing the per-tier cursor table. -/
def withIdxTable {α : Type} (s : CurriculumPromptLoader α)
    (d : List (Int × Int)) : CurriculumPromptLoader α :=
  { s with difficulty_to_prompts_idx := d }

/-- Python dict read `d[k]`: `KeyError` when the key is absent. -/
def dictGet {β : Type} (d : List (Int × β)) (k : Int) : Except String β :=
  match d.find? (fun p => p.1 == k) with
  | some p => Except.ok p.2
  | none => Except.error "KeyError"

/-- Python dict write `d[k] = v`. -/
def dictSet {β : Type} (d : List (Int × β)) (k : Int) (v : β) : List (Int × β) :=
  if d.any (fun p => p.1 == k) then
    d.map fun p => if p.1 == k then (k, v) else p
  else d ++ [(k, v)]

/-- Python list subscription `l[i]`, including negative indices;
`IndexError` out of range. -/
def pyListGet {α : Type} (l : List α) (i : Int) : Except String α :=
  let j : Int := if 0 ≤ i then i else i + l.length
  if h : 0 ≤ j ∧ j.toNat < l.length then Except.ok (l.get ⟨j.toNat, h.2⟩)
  else Except.error "IndexError"

lemma pyListGet_ok {α : Type} (l : List α) (i : Int) (h0 : 0 ≤ i)
    (hlt : i.toNat < l.length) :
    pyListGet l i = Except.ok (l.get ⟨i.toNat, hlt⟩) := by
  simp only [pyListGet, if_pos h0]
  rw [dif_pos ⟨h0, hlt⟩]

/-- Embedding of `CurriculumPromptLoader.set_difficulty`
(ordered_dataloader.py lines 59-61): the passed value is stored verbatim. -/
def set_difficulty {α : Type} (s : CurriculumPromptLoader α) (d : Int) :
    CurriculumPromptLoader α :=
  { s with current_difficulty := d }

/-- Embedding of `CurriculumPromptLoader.next` (ordered_dataloader.py
lines 45-57).  Returns the served prompt entry (the code returns the pair
`(prompt.prompt, prompt)` built from it), the successor state, and a flag
recording whether the tier-exhausted warning was logged. -/
def nextPrompt {α : Type} (s : CurriculumPromptLoader α) :
    Except String (α × CurriculumPromptLoader α × Bool) :=
  match dictGet s.difficulty_to_prompts_idx s.current_difficulty with
  | Except.error e => Except.error e
  | Except.ok idx0 =>
    match dictGet s.difficulty_to_prompts s.current_difficulty with
    | Except.error e => Except.error e
    | Except.ok prompts =>
      let warned : Bool := decide ((prompts.length : Int) ≤ idx0)
      let idx1 : Int :=
        if (prompts.length : Int) ≤ idx0 then s.process_index else idx0
      match pyListGet prompts idx1 with
      | Except.error e => Except.error e
      | Except.ok p =>
        Except.ok (p,
          withIdxTable s
            (dictSet s.difficulty_to_prompts_idx s.current_difficulty
              (idx1 + s.num_processes)),
          warned)

/-- C7 (counterexample): with tiers 1 and 2 (difficulty range `[1, 2]`),
`set_difficulty 3` stores 3 unclamped, and the following `next()` raises
`KeyError` instead of serving a clamped tier. -/
theorem C7_difficulty_clamp_counterexample :
    (set_difficulty
      (⟨[(1, [10]), (2, [20])], [(1, 0), (2, 0)], 1, 0, 1⟩ :
        CurriculumPromptLoader ℕ) 3).current_difficulty = 3 ∧
    ¬ ((1 : Int) ≤ 3 ∧ (3 : Int) ≤ 2) ∧
    nextPrompt (set_difficulty
      (⟨[(1, [10]), (2, [20])], [(1, 0), (2, 0)], 1, 0, 1⟩ :
        CurriculumPromptLoader ℕ) 3) = Except.error "KeyError" :=
  ⟨rfl, by decide, rfl⟩

/-- C7 (amended): the difficulty feed performs no clamping —
`set_difficulty d` stores `d` verbatim as the difficulty used by
subsequent `next()` calls, and when `d` lies outside the configured tiers
`next()` raises `KeyError` rather than accessing a clamped tier. -/
theorem C7_difficulty_feed_unclamped {α : Type} (s : CurriculumPromptLoader α)
    (d : Int)
    (hd : s.difficulty_to_prompts_idx.find? (fun p => p.1 == d) = none) :
    (set_difficulty s d).current_difficulty = d ∧
    nextPrompt (set_difficulty s d) = Except.error "KeyError" := by
  refine ⟨rfl, ?_⟩
  simp only [nextPrompt, set_difficulty, dictGet, hd]

/-- Witness for `C7_difficulty_feed_unclamped`: the two-tier loader with
difficulty 5 requested. -/
theorem C7_difficulty_feed_unclamped_witness :
    (set_difficulty
      (⟨[(1, [10]), (2, [20])], [(1, 0), (2, 0)], 1, 0, 1⟩ :
        CurriculumPromptLoader ℕ) 5).current_difficulty = 5 ∧
    nextPrompt (set_difficulty
      (⟨[(1, [10]), (2, [20])], [(1, 0), (2, 0)], 1, 0, 1⟩ :
        CurriculumPromptLoader ℕ) 5) = Except.error "KeyError" :=
  C7_difficulty_feed_unclamped
    (⟨[(1, [10]), (2, [20])], [(1, 0), (2, 0)], 1, 0, 1⟩ :
      CurriculumPromptLoader ℕ) 5 (by decide)

/-- C8 (counterexample): a worker with `process_index = 1` on a tier with
a single prompt: the cursor (1) has reached the end of the tier, and
`next()` raises `IndexError` — resetting the cursor to the worker's
`process_index` does not yield an in-bounds index when the tier is shorter
than the worker count. -/
theorem C8_wraparound_counterexample :
    (((([42] : List ℕ).length : Int)) ≤ 1) ∧
    nextPrompt (⟨[(1, [42])], [(1, 1)], 1, 1, 2⟩ : CurriculumPromptLoader ℕ) =
      Except.error "IndexError" :=
  ⟨by decide, rfl⟩

/-- C8 (amended): provided the worker's `process_index` is an in-bounds
index of the current tier's prompt list and its cursor is nonnegative,
`next()` never raises: when the cursor has reached or passed the end of
the tier it is reset to the worker's `process_index` and the warning is
logged, the returned prompt comes from an in-bounds index of the current
tier, and the stored cursor advances by `num_processes`. -/
theorem C8_exhausted_tier_wraparound {α : Type} (s : CurriculumPromptLoader α)
    (c : Int) (prompts : List α)
    (hidx : dictGet s.difficulty_to_prompts_idx s.current_difficulty =
      Except.ok c)
    (hpr : dictGet s.difficulty_to_prompts s.current_difficulty =
      Except.ok prompts)
    (hc : 0 ≤ c)
    (hpi0 : 0 ≤ s.process_index)
    (hpi : s.process_index.toNat < prompts.length) :
    ∃ hlt : ((if (prompts.length : Int) ≤ c then s.process_index else c).toNat
        < prompts.length),
      nextPrompt s = Except.ok
        (prompts.get
          ⟨(if (prompts.length : Int) ≤ c then s.process_index else c).toNat, hlt⟩,
        withIdxTable s
          (dictSet s.difficulty_to_prompts_idx s.current_difficulty
            ((if (prompts.length : Int) ≤ c then s.process_index else c)
              + s.num_processes)),
        decide ((prompts.length : Int) ≤ c)) := by
  have hnn : 0 ≤ (if (prompts.length : Int) ≤ c then s.process_index else c) := by
    split <;> assumption
  have hlt : ((if (prompts.length : Int) ≤ c then s.process_index else c).toNat
      < prompts.length) := by
    split
    · exact hpi
    · rename_i hlen
      omega
  have hpy : pyListGet prompts
      (if (prompts.length : Int) ≤ c then s.process_index else c) =
      Except.ok (prompts.get
        ⟨(if (prompts.length : Int) ≤ c then s.process_index else c).toNat, hlt⟩) :=
    pyListGet_ok prompts _ hnn hlt
  refine ⟨hlt, ?_⟩
  simp only [nextPrompt, hidx, hpr, hpy]

/-- Witness for `C8_exhausted_tier_wraparound`: a tier of two prompts,
cursor 7 past the end, worker 0 of 1 — `next()` wraps to index 0, serves
the first prompt, flags the warning, and stores cursor 1. -/
theorem C8_exhausted_tier_wraparound_witness :
    ∃ hlt : ((if (([5, 6] : List ℕ).length : Int) ≤ 7 then (0 : Int) else 7).toNat
        < ([5, 6] : List ℕ).length),
      nextPrompt (⟨[(1, [5, 6])], [(1, 7)], 1, 0, 1⟩ : CurriculumPromptLoader ℕ) =
        Except.ok
          (([5, 6] : List ℕ).get
            ⟨(if (([5, 6] : List ℕ).length : Int) ≤ 7 then (0 : Int) else 7).toNat, hlt⟩,
          withIdxTable (⟨[(1, [5, 6])], [(1, 7)], 1, 0, 1⟩ : CurriculumPromptLoader ℕ)
            (dictSet [(1, 7)] 1
              ((if (([5, 6] : List ℕ).length : Int) ≤ 7 then (0 : Int) else 7) + 1)),
          decide ((([5, 6] : List ℕ).length : Int) ≤ 7)) :=
  C8_exhausted_tier_wraparound
    (⟨[(1, [5, 6])], [(1, 7)], 1, 0, 1⟩ : CurriculumPromptLoader ℕ)
    7 [5, 6] rfl rfl (by norm_num) (by norm_num) (by norm_num)

/-! ### Curriculum observation — `Trainer._sample` in the three trainers

After computing a batch's rewards each trainer builds the observation
`{current_step: global_step + i, difficulty: self.last_difficulty,
reward: rewards.mean().cpu().numpy()}`, passes it to
`self.curriculum.infer_target_difficulty` and immediately calls
`self.update_target_difficulty` on the result (ddpo.py lines 427-434,
d3po.py lines 534-541, dpok.py lines 440-447).  The dynamic typing of the
`reward` expression matters: a `torch` tensor mean is a 0-dimensional
tensor with `.cpu()` and `.numpy()` methods, while a numpy array mean is
an `np.float64` with neither, and a Python name that is not bound in the
enclosing scope raises `NameError` when the expression is evaluated.
In ddpo the rewards are a torch tensor (line 425) and the loop variable
is `i`; in d3po the rewards are the numpy array `np.c_[rewards1, rewards2]`
(lines 525-530); in dpok the rewards are a torch tensor (line 438) but the
sampling loop binds `_`, not `i` (line 399). -/
inductive PyScalar
  | torchScalar (x : ℝ)
  | npFloat (x : ℝ)

inductive PyTensor
  | torch (data : List ℝ)
  | ndarray (data : List ℝ)

/-- Method `.mean()`: a torch tensor yields a 0-dimensional torch tensor,
a numpy array yields an `np.float64`. -/
noncomputable def PyTensor.mean : PyTensor → PyScalar
  | .torch d => .torchScalar (listMean d)
  | .ndarray d => .npFloat (listMean d)

/-- Method `.cpu()`: defined on torch tensors only. -/
def PyScalar.cpu : PyScalar → Except String PyScalar
  | .torchScalar x => Except.ok (.torchScalar x)
  | .npFloat _ =>
    Except.error "AttributeError: numpy.float64 object has no attribute cpu"

/-- Method `.numpy()`: defined on (cpu) torch tensors only. -/
def PyScalar.numpy : PyScalar → Except String PyScalar
  | .torchScalar x => Except.ok (.npFloat x)
  | .npFloat _ =>
    Except.error "AttributeError: numpy.float64 object has no attribute numpy"

/-- Python name lookup in a local environment; unbound names raise
`NameError`. -/
def pyLookup (env : List (String × Int)) (x : String) : Except String Int :=
  match env.find? (fun p => p.1 == x) with
  | some p => Except.ok p.2
  | none => Except.error ("NameError: name " ++ x ++ " is not defined")

/-- Observation handed to `Curriculum.infer_target_difficulty`. -/
structure Observation where
  current_step : Int
  difficulty : Int
  reward : PyScalar

/-- Observation built by ddpo.py lines 427-433: loop index `i` is bound and
`rewards` is a torch tensor. -/
noncomputable def ddpoCurriculumObs (global_step i last_difficulty : Int)
    (rewards : List ℝ) : Except String Observation :=
  match (PyTensor.torch rewards).mean.cpu with
  | Except.error e => Except.error e
  | Except.ok r =>
    match r.numpy with
    | Except.error e => Except.error e
    | Except.ok r2 => Except.ok ⟨global_step + i, last_difficulty, r2⟩

/-- Observation built by d3po.py lines 534-540: `rewards` is the numpy
array `np.c_[rewards1, rewards2]` (embedded flattened), whose mean is an
`np.float64`. -/
noncomputable def d3poCurriculumObs (global_step i last_difficulty : Int)
    (rewards : List ℝ) : Except String Observation :=
  match (PyTensor.ndarray rewards).mean.cpu with
  | Except.error e => Except.error e
  | Except.ok r =>
    match r.numpy with
    | Except.error e => Except.error e
    | Except.ok r2 => Except.ok ⟨global_step + i, last_difficulty, r2⟩

/-- Name of the sampling loop variable in dpok.py line 399. -/
def dpokSampleLoopVar : String := "_"

/-- Observation built by dpok.py lines 440-446: the expression
`global_step + i` is evaluated in a scope whose loop variable is named
`_`, so the lookup of `i` is performed first. -/
noncomputable def dpokCurriculumObs (global_step last_difficulty
    batch_counter : Int) (rewards : List ℝ) : Except String Observation :=
  match pyLookup [(dpokSampleLoopVar, batch_counter)] "i" with
  | Except.error e => Except.error e
  | Except.ok i =>
    match (PyTensor.torch rewards).mean.cpu with
    | Except.error e => Except.error e
    | Except.ok r =>
      match r.numpy with
      | Except.error e => Except.error e
      | Except.ok r2 => Except.ok ⟨global_step + i, last_difficulty, r2⟩

/-- C4 (evaluation): ddpo builds the observation
`(global_step + i, last difficulty, mean reward)` without error, but for
every input d3po raises `AttributeError` (calling `.cpu()` on the
`np.float64` mean of its numpy reward matrix) and dpok raises `NameError`
(its sampling loop binds `_` while the observation expression reads `i`),
so neither reaches the controller call. -/
theorem C4_curriculum_observation :
    (∀ (gs i d : Int) (rw : List ℝ),
      ddpoCurriculumObs gs i d rw =
        Except.ok ⟨gs + i, d, PyScalar.npFloat (listMean rw)⟩) ∧
    (∀ (gs i d : Int) (rw : List ℝ),
      d3poCurriculumObs gs i d rw =
        Except.error "AttributeError: numpy.float64 object has no attribute cpu") ∧
    (∀ (gs d bc : Int) (rw : List ℝ),
      dpokCurriculumObs gs d bc rw =
        Except.error "NameError: name i is not defined") :=
  ⟨fun _ _ _ _ => rfl, fun _ _ _ _ => rfl, fun _ _ _ _ => rfl⟩

/-! ### Paired-trajectory sampling — `Trainer._sample`, d3po.py lines 487-530

The first rollout is drawn with no `latents` argument; the second rollout
is drawn with `latents=latents1[:, 0, :, :, :]`, the first element of the
first rollout's latent sequence; rewards are then computed for both
trajectories (`rewards1` from `images1`, `rewards2` from `images2`) and
paired with `np.c_`.  The external `pipeline_with_logprob` is abstracted
as a function from prompt embeddings and an optional initial latent batch
to the rollout output. -/
structure PipelineOutput (Img Lat : Type) where
  images : Img
  latents : List Lat
  log_probs : List ℝ

/-- Record of one paired sampling batch: the two rollout outputs, the
`latents=` argument the code passed to the second rollout call, and the
two reward evaluations. -/
structure D3POPairedBatch (Img Lat Rew : Type) where
  out1 : PipelineOutput Img Lat
  out2 : PipelineOutput Img Lat
  initArg2 : Option Lat
  rewards1 : Rew
  rewards2 : Rew

/-- Embedding of the paired rollout-and-reward portion of d3po's
`Trainer._sample` (lines 487-530). -/
def d3poPairedSample {Img Lat Rew Emb : Type} [Inhabited Lat]
    (sampler : Emb → Option Lat → PipelineOutput Img Lat)
    (reward_fn : Img → Rew) (embeds : Emb) : D3POPairedBatch Img Lat Rew :=
  let o1 := sampler embeds none
  let o2 := sampler embeds (some o1.latents.headI)
  { out1 := o1, out2 := o2, initArg2 := some o1.latents.headI,
    rewards1 := reward_fn o1.images, rewards2 := reward_fn o2.images }

/-- C9: in paired mode the second rollout is started from exactly the
initial noise state of the first — the `latents` argument of the second
call is the first element of the first rollout's latent sequence, and
(assuming the external sampler echoes a supplied initial state as the
first element of its returned latent sequence, per its contract) the two
trajectories share their initial latent; rewards are computed for both
trajectories. -/
theorem C9_paired_sampling_shared_init {Img Lat Rew Emb : Type} [Inhabited Lat]
    (sampler : Emb → Option Lat → PipelineOutput Img Lat)
    (reward_fn : Img → Rew) (embeds : Emb)
    (hsampler : ∀ (e : Emb) (l : Lat), (sampler e (some l)).latents.headI = l) :
    (d3poPairedSample sampler reward_fn embeds).initArg2 =
      some (d3poPairedSample sampler reward_fn embeds).out1.latents.headI ∧
    (d3poPairedSample sampler reward_fn embeds).out2.latents.headI =
      (d3poPairedSample sampler reward_fn embeds).out1.latents.headI ∧
    (d3poPairedSample sampler reward_fn embeds).rewards1 =
      reward_fn (d3poPairedSample sampler reward_fn embeds).out1.images ∧
    (d3poPairedSample sampler reward_fn embeds).rewards2 =
      reward_fn (d3poPairedSample sampler reward_fn embeds).out2.images :=
  ⟨rfl, hsampler embeds (sampler embeds none).latents.headI, rfl, rfl⟩

/-- Witness for `C9_paired_sampling_shared_init`: a concrete sampler over
integer latents that echoes a supplied initial state. -/
theorem C9_paired_sampling_shared_init_witness :
    (d3poPairedSample (fun (_ : Unit) l => ⟨(5 : ℕ), [l.getD 7, 1], [0]⟩)
      (fun img => img + 1) ()).initArg2 =
      some (d3poPairedSample (fun (_ : Unit) l => ⟨(5 : ℕ), [l.getD 7, 1], [0]⟩)
        (fun img => img + 1) ()).out1.latents.headI ∧
    (d3poPairedSample (fun (_ : Unit) l => ⟨(5 : ℕ), [l.getD 7, 1], [0]⟩)
      (fun img => img + 1) ()).out2.latents.headI =
      (d3poPairedSample (fun (_ : Unit) l => ⟨(5 : ℕ), [l.getD 7, 1], [0]⟩)
        (fun img => img + 1) ()).out1.latents.headI ∧
    (d3poPairedSample (fun (_ : Unit) l => ⟨(5 : ℕ), [l.getD 7, 1], [0]⟩)
      (fun img => img + 1) ()).rewards1 =
      (fun img => img + 1)
        ((d3poPairedSample (fun (_ : Unit) l => ⟨(5 : ℕ), [l.getD 7, 1], [0]⟩)
          (fun img => img + 1) ()).out1.images) ∧
    (d3poPairedSample (fun (_ : Unit) l => ⟨(5 : ℕ), [l.getD 7, 1], [0]⟩)
      (fun img => img + 1) ()).rewards2 =
      (fun img => img + 1)
        ((d3poPairedSample (fun (_ : Unit) l => ⟨(5 : ℕ), [l.getD 7, 1], [0]⟩)
          (fun img => img + 1) ()).out2.images) :=
  C9_paired_sampling_shared_init
    (fun (_ : Unit) (l : Option ℕ) => ⟨(5 : ℕ), [l.getD 7, 1], [0]⟩)
    (fun img => img + 1) () (fun _ _ => rfl)

end DiffusionCurriculum
